import Mathlib

/-!
Verification of the AIJobs tracker (schemas/job_schema.py, schemas/change_tracker.py,
scrapers/base_scraper.py and the four platform scrapers) against its specification.

The Python code is shallowly embedded: dataclasses become structures, Python dicts
become association lists with Python's insertion semantics, `datetime` instants are
abstract `Nat` timestamps whose `isoformat`/`fromisoformat` pair is modelled as an
injective, never-empty decimal-digit encoding, and code that can raise becomes
`Option`/`Except`-valued.
-/

namespace AIJobs

/-- Model of a `datetime.datetime` value: an abstract UTC instant. -/
abbrev DateTime := Nat

/-- Model of `datetime.isoformat()`: an injective, never-empty digit-string encoding
of the instant (`Nat.digits` of the successor, so the encoding of any instant is a
non-empty list, as a real ISO-8601 string is never empty). -/
def DateTime.isoformat (d : DateTime) : List Nat := Nat.digits 10 (d + 1)

/-- Model of `datetime.fromisoformat()`: the parser inverting `DateTime.isoformat`. -/
def DateTime.fromisoformat (s : List Nat) : DateTime := Nat.ofDigits 10 s - 1

/-- `job_schema.JobStatus`. -/
inductive JobStatus where
  | active
  | closed
  | updated
  | new
deriving DecidableEq, Repr

/-- The `.value` string of each `JobStatus` member. -/
def JobStatus.value : JobStatus → String
  | .active => "active"
  | .closed => "closed"
  | .updated => "updated"
  | .new => "new"

/-- Model of the `JobStatus(s)` enum constructor: returns the member whose value is
`s`, failing (Python `ValueError`) otherwise. -/
def JobStatus.fromValue (s : String) : Option JobStatus :=
  if s = "active" then some .active
  else if s = "closed" then some .closed
  else if s = "updated" then some .updated
  else if s = "new" then some .new
  else none

/-- `job_schema.JobSource`. -/
inductive JobSource where
  | greenhouse
  | lever
  | workday
  | ashby
  | custom
deriving DecidableEq, Repr

/-- The `.value` string of each `JobSource` member. -/
def JobSource.value : JobSource → String
  | .greenhouse => "greenhouse"
  | .lever => "lever"
  | .workday => "workday"
  | .ashby => "ashby"
  | .custom => "custom"

/-- Model of the `JobSource(s)` enum constructor. -/
def JobSource.fromValue (s : String) : Option JobSource :=
  if s = "greenhouse" then some .greenhouse
  else if s = "lever" then some .lever
  else if s = "workday" then some .workday
  else if s = "ashby" then some .ashby
  else if s = "custom" then some .custom
  else none

/- Raw per-platform items, as the scrapers read them from the platform payloads.
An `Option` field is `none` when the key is absent from (or null in) the raw dict. -/

/-- A Lever `workplaceAddress` dict (`city`/`country` entries). -/
structure LeverAddress where
  city : Option String := none
  country : Option String := none
deriving DecidableEq, Repr

/-- A raw Lever job dict as consumed by `LeverScraper._parse_job_data`. -/
structure LeverItem where
  id : Option String := none
  text : Option String := none
  hostedUrl : Option String := none
  applyUrl : Option String := none
  categories : List (String × String) := []
  location : Option String := none
  locationText : Option String := none
  workplaceAddress : Option LeverAddress := none
  type : Option String := none
  description : Option String := none
  descriptionPlain : Option String := none
  additional : Option String := none
deriving DecidableEq, Repr

/-- One entry of a Greenhouse `departments` list. -/
structure GhDepartment where
  name : Option String := none
deriving DecidableEq, Repr

/-- A raw Greenhouse list item as consumed by `GreenhouseScraper._parse_job_data`
(`location` holds `job_data.get('location', {}).get('name')`). -/
structure GreenhouseItem where
  id : Option String := none
  title : Option String := none
  departments : List GhDepartment := []
  location : Option String := none
  employment_type : Option String := none
deriving DecidableEq, Repr

/-- One entry of a Greenhouse detail `questions` list. -/
structure GhQuestion where
  label : Option String := none
deriving DecidableEq, Repr

/-- A Greenhouse per-job detail payload (`_get_job_details` result). -/
structure GhDetails where
  content : Option String := none
  questions : Option (List GhQuestion) := none
deriving DecidableEq, Repr

/-- One entry of a Workday `bulletFields` list. -/
structure WorkdayBullet where
  label : Option String := none
  text : Option String := none
deriving DecidableEq, Repr

/-- A raw Workday posting as consumed by `WorkdayScraper._parse_job`. -/
structure WorkdayItem where
  id : Option String := none
  jobPostingId : Option String := none
  title : Option String := none
  bulletFields : List WorkdayBullet := []
deriving DecidableEq, Repr

/-- An element of an Ashby `locations`/`departments` list: either a dict with a
`name` entry or a plain string (the code tests `isinstance(first, dict)`). -/
inductive AshbyField where
  | dict (name : Option String)
  | plain (s : String)
deriving DecidableEq, Repr

/-- A raw Ashby job as consumed by `AshbyScraper._parse_job`. -/
structure AshbyItem where
  id : Option String := none
  slug : Option String := none
  title : Option String := none
  locations : Option (List AshbyField) := none
  departments : Option (List AshbyField) := none
deriving DecidableEq, Repr

/-- The opaque `raw_data` payload a scraper attaches to a posting. -/
inductive RawData where
  | dict (entries : List (String × String))
  | leverItem (item : LeverItem)
  | greenhouseItem (item : GreenhouseItem)
  | workdayItem (item : WorkdayItem)
  | ashbyItem (item : AshbyItem)
deriving DecidableEq, Repr

/-- `job_schema.JobPosting`, with every field of the dataclass. -/
structure JobPosting where
  job_id : String
  source : JobSource
  company_name : String
  external_id : String
  title : String
  job_url : String
  source_url : String
  first_seen : DateTime
  last_seen : DateTime
  team : Option String := none
  location : Option String := none
  employment_type : Option String := none
  description : Option String := none
  requirements : Option (List String) := none
  apply_url : Option String := none
  updated_at : Option DateTime := none
  status : JobStatus := JobStatus.active
  salary_range : Option String := none
  remote_policy : Option String := none
  experience_level : Option String := none
  raw_data : Option RawData := none
deriving DecidableEq, Repr

/-- The dictionary produced by `JobPosting.to_dict`: enums replaced by their value
strings, datetimes by their isoformat encodings, everything else as in the
dataclass (`raw_data` and `requirements` are JSON-representable by construction). -/
structure JobDict where
  job_id : String
  source : String
  company_name : String
  external_id : String
  title : String
  job_url : String
  source_url : String
  first_seen : List Nat
  last_seen : List Nat
  team : Option String := none
  location : Option String := none
  employment_type : Option String := none
  description : Option String := none
  requirements : Option (List String) := none
  apply_url : Option String := none
  updated_at : Option (List Nat) := none
  status : String
  salary_range : Option String := none
  remote_policy : Option String := none
  experience_level : Option String := none
  raw_data : Option RawData := none
deriving DecidableEq, Repr

/-- `JobPosting.to_dict`: `asdict` plus enum-to-value and datetime-to-isoformat
conversions (`first_seen`/`last_seen` are datetimes, hence always truthy; a `None`
`updated_at` is left as `None`). -/
def JobPosting.to_dict (j : JobPosting) : JobDict :=
  { job_id := j.job_id
    source := j.source.value
    company_name := j.company_name
    external_id := j.external_id
    title := j.title
    job_url := j.job_url
    source_url := j.source_url
    first_seen := DateTime.isoformat j.first_seen
    last_seen := DateTime.isoformat j.last_seen
    team := j.team
    location := j.location
    employment_type := j.employment_type
    description := j.description
    requirements := j.requirements
    apply_url := j.apply_url
    updated_at := j.updated_at.map DateTime.isoformat
    status := j.status.value
    salary_range := j.salary_range
    remote_policy := j.remote_policy
    experience_level := j.experience_level
    raw_data := j.raw_data }

/-- `JobPosting.from_dict`: enum values parsed back through the enum constructors
(a bad value raises, modelled as `none`); a date field is parsed only when truthy
(non-empty) — a falsy encoding would leave a raw string in a datetime slot, which
has no well-typed counterpart, modelled as `none`. -/
def JobPosting.from_dict (d : JobDict) : Option JobPosting :=
  match JobSource.fromValue d.source, JobStatus.fromValue d.status with
  | some src, some st =>
    if d.first_seen.isEmpty then none
    else if d.last_seen.isEmpty then none
    else
      match d.updated_at with
      | some u =>
        if u.isEmpty then none
        else
          some { job_id := d.job_id, source := src, company_name := d.company_name
                 external_id := d.external_id, title := d.title, job_url := d.job_url
                 source_url := d.source_url
                 first_seen := DateTime.fromisoformat d.first_seen
                 last_seen := DateTime.fromisoformat d.last_seen
                 team := d.team, location := d.location
                 employment_type := d.employment_type, description := d.description
                 requirements := d.requirements, apply_url := d.apply_url
                 updated_at := some (DateTime.fromisoformat u), status := st
                 salary_range := d.salary_range, remote_policy := d.remote_policy
                 experience_level := d.experience_level, raw_data := d.raw_data }
      | none =>
          some { job_id := d.job_id, source := src, company_name := d.company_name
                 external_id := d.external_id, title := d.title, job_url := d.job_url
                 source_url := d.source_url
                 first_seen := DateTime.fromisoformat d.first_seen
                 last_seen := DateTime.fromisoformat d.last_seen
                 team := d.team, location := d.location
                 employment_type := d.employment_type, description := d.description
                 requirements := d.requirements, apply_url := d.apply_url
                 updated_at := none, status := st
                 salary_range := d.salary_range, remote_policy := d.remote_policy
                 experience_level := d.experience_level, raw_data := d.raw_data }
  | _, _ => none

/-- `JobPosting.is_active`: `self.status == JobStatus.ACTIVE`. -/
def JobPosting.is_active (j : JobPosting) : Bool := j.status == JobStatus.active

/-- `job_schema.JobEvent`. -/
structure JobEvent where
  event_type : String
  job_id : String
  timestamp : DateTime
  previous_data : Option JobDict := none
  new_data : Option JobDict := none
deriving DecidableEq, Repr

lemma statusFromValue_value (s : JobStatus) : JobStatus.fromValue s.value = some s := by
  cases s <;> rfl

lemma sourceFromValue_value (s : JobSource) : JobSource.fromValue s.value = some s := by
  cases s <;> rfl

lemma DateTime.isoformat_ne_nil (d : DateTime) : DateTime.isoformat d ≠ [] :=
  Nat.digits_ne_nil_iff_ne_zero.mpr (Nat.succ_ne_zero d)

lemma DateTime.isoformat_isEmpty (d : DateTime) : (DateTime.isoformat d).isEmpty = false := by
  have h := DateTime.isoformat_ne_nil d
  cases hs : DateTime.isoformat d with
  | nil => exact absurd hs h
  | cons a l => simp [List.isEmpty]

lemma DateTime.fromisoformat_isoformat (d : DateTime) :
    DateTime.fromisoformat (DateTime.isoformat d) = d := by
  rw [DateTime.fromisoformat, DateTime.isoformat, Nat.ofDigits_digits]
  exact Nat.succ_sub_one d

/-- C10: for every posting (whose `raw_data` and `requirements` are
JSON-representable by the construction of their types), `from_dict ∘ to_dict`
is the identity: the `source`/`status` enums and the three datetime fields
round-trip exactly through their string encodings, and every other field is
passed through unchanged. -/
theorem C10_to_dict_from_dict_roundtrip (j : JobPosting) :
    JobPosting.from_dict (JobPosting.to_dict j) = some j := by
  obtain ⟨jid, src, cn, eid, ti, ju, su, fs, ls, te, lo, et, de, re, au, ua, st, sr, rp, el,
    rd⟩ := j
  cases ua with
  | none =>
    simp [JobPosting.to_dict, JobPosting.from_dict, statusFromValue_value,
      sourceFromValue_value, DateTime.isoformat_isEmpty,
      DateTime.fromisoformat_isoformat]
  | some u =>
    simp [JobPosting.to_dict, JobPosting.from_dict, statusFromValue_value,
      sourceFromValue_value, DateTime.isoformat_isEmpty,
      DateTime.fromisoformat_isoformat]

/- Python dicts are modelled as association lists with Python's semantics:
assignment replaces the value of an existing key in place and appends a fresh
key at the end; lookup returns the value of the (unique) matching key. -/

/-- Python dict lookup. -/
def dictGet {α : Type} : List (String × α) → String → Option α
  | [], _ => none
  | (k', v') :: rest, k => if k' = k then some v' else dictGet rest k

/-- Python dict assignment `m[k] = v`. -/
def dictInsert {α : Type} : List (String × α) → String → α → List (String × α)
  | [], k, v => [(k, v)]
  | (k', v') :: rest, k, v =>
    if k' = k then (k', v) :: rest else (k', v') :: dictInsert rest k v

lemma dictGet_eq_none_iff {α : Type} (m : List (String × α)) (k : String) :
    dictGet m k = none ↔ k ∉ m.map Prod.fst := by
  induction m with
  | nil => simp [dictGet]
  | cons e rest ih =>
    obtain ⟨k', v'⟩ := e
    by_cases h : k' = k
    · subst h
      simp [dictGet]
    · simp only [dictGet, if_neg h, ih, List.map_cons, List.mem_cons]
      constructor
      · rintro hn (rfl | hm)
        · exact h rfl
        · exact hn hm
      · intro hn hm
        exact hn (Or.inr hm)

lemma dictGet_isSome_iff {α : Type} (m : List (String × α)) (k : String) :
    (dictGet m k).isSome = true ↔ k ∈ m.map Prod.fst := by
  rw [Option.isSome_iff_ne_none, ne_eq, dictGet_eq_none_iff, not_not]

lemma dictGet_of_mem_nodup {α : Type} {m : List (String × α)}
    (hm : (m.map Prod.fst).Nodup) {k : String} {v : α} (hkv : (k, v) ∈ m) :
    dictGet m k = some v := by
  induction m with
  | nil => cases hkv
  | cons e rest ih =>
    obtain ⟨k', v'⟩ := e
    rcases List.mem_cons.mp hkv with h | h
    · injection h with h1 h2
      subst h1
      subst h2
      simp [dictGet]
    · have hk : k' ≠ k := by
        intro he
        subst he
        exact (List.nodup_cons.mp (List.map_cons Prod.fst _ _ ▸ hm)).1
          (List.mem_map_of_mem Prod.fst h)
      simp [dictGet, hk, ih (List.nodup_cons.mp (List.map_cons Prod.fst _ _ ▸ hm)).2 h]

lemma dictGet_append {α : Type} (m₁ m₂ : List (String × α)) (k : String) :
    dictGet (m₁ ++ m₂) k =
      match dictGet m₁ k with
      | some v => some v
      | none => dictGet m₂ k := by
  induction m₁ with
  | nil => simp [dictGet]
  | cons e rest ih =>
    obtain ⟨k', v'⟩ := e
    by_cases h : k' = k <;> simp [dictGet, h, ih]

lemma dictGet_mapEntry {α β : Type} (g : String → α → β) (m : List (String × α)) (k : String) :
    dictGet (m.map (fun e => (e.1, g e.1 e.2))) k = (dictGet m k).map (g k) := by
  induction m with
  | nil => rfl
  | cons e rest ih =>
    obtain ⟨k', v'⟩ := e
    by_cases h : k' = k
    · subst h
      simp [dictGet]
    · simp [dictGet, h, ih]

lemma keys_mapEntry {α β : Type} (g : String → α → β) (m : List (String × α)) :
    (m.map (fun e => (e.1, g e.1 e.2))).map Prod.fst = m.map Prod.fst := by
  simp [List.map_map]

lemma dictInsert_of_not_mem {α : Type} {m : List (String × α)} {k : String}
    (h : k ∉ m.map Prod.fst) (v : α) : dictInsert m k v = m ++ [(k, v)] := by
  induction m with
  | nil => rfl
  | cons e rest ih =>
    obtain ⟨k', v'⟩ := e
    simp only [List.map_cons, List.mem_cons] at h
    push_neg at h
    simp [dictInsert, Ne.symm h.1, ih h.2]

lemma dictGet_dictInsert_ne {α : Type} (m : List (String × α)) {k k' : String}
    (h : k' ≠ k) (v : α) : dictGet (dictInsert m k' v) k = dictGet m k := by
  induction m with
  | nil => simp [dictInsert, dictGet, h]
  | cons e rest ih =>
    obtain ⟨k'', v''⟩ := e
    by_cases h2 : k'' = k'
    · subst h2
      simp only [dictInsert, if_pos rfl, dictGet, if_neg h]
    · simp only [dictInsert, if_neg h2, dictGet]
      by_cases h3 : k'' = k
      · rw [if_pos h3, if_pos h3]
      · rw [if_neg h3, if_neg h3, ih]

lemma mem_keys_dictInsert {α : Type} (m : List (String × α)) (k : String) (v : α) (x : String) :
    x ∈ (dictInsert m k v).map Prod.fst ↔ x ∈ m.map Prod.fst ∨ x = k := by
  induction m with
  | nil => simp [dictInsert]
  | cons e rest ih =>
    obtain ⟨k', v'⟩ := e
    by_cases h : k' = k
    · subst h
      rw [dictInsert, if_pos rfl, List.map_cons, List.map_cons]
      simp only [List.mem_cons]
      tauto
    · rw [dictInsert, if_neg h, List.map_cons, List.map_cons]
      simp only [List.mem_cons, ih]
      tauto

lemma keys_dictInsert_nodup {α : Type} {m : List (String × α)}
    (hm : (m.map Prod.fst).Nodup) (k : String) (v : α) :
    ((dictInsert m k v).map Prod.fst).Nodup := by
  induction m with
  | nil => simp [dictInsert]
  | cons e rest ih =>
    obtain ⟨k', v'⟩ := e
    rw [List.map_cons, List.nodup_cons] at hm
    by_cases h : k' = k
    · subst h
      simpa [dictInsert, List.nodup_cons] using hm
    · rw [dictInsert, if_neg h, List.map_cons, List.nodup_cons]
      refine ⟨?_, ih hm.2⟩
      rw [mem_keys_dictInsert]
      rintro (hc | rfl)
      · exact hm.1 hc
      · exact h rfl

/-- The indexing loop of `ChangeTracker.process_new_scraping`:
`for job in new_jobs: self.current_jobs[job.job_id] = job`. -/
def indexJobs (new_jobs : List JobPosting) : List (String × JobPosting) :=
  new_jobs.foldl (fun m j => dictInsert m j.job_id j) []

lemma foldl_dictInsert_keys_nodup :
    ∀ (l : List JobPosting) (m : List (String × JobPosting)),
      (m.map Prod.fst).Nodup →
      ((l.foldl (fun m j => dictInsert m j.job_id j) m).map Prod.fst).Nodup := by
  intro l
  induction l with
  | nil => exact fun m hm => hm
  | cons j rest ih =>
    intro m hm
    exact ih (dictInsert m j.job_id j) (keys_dictInsert_nodup hm j.job_id j)

lemma indexJobs_keys_nodup (jobs : List JobPosting) :
    ((indexJobs jobs).map Prod.fst).Nodup :=
  foldl_dictInsert_keys_nodup jobs [] (by simp)

lemma foldl_dictInsert_fresh {α : Type} (f : String × α → α) :
    ∀ (l m : List (String × α)),
      (∀ e ∈ l, e.1 ∉ m.map Prod.fst) → (l.map Prod.fst).Nodup →
      l.foldl (fun acc e => dictInsert acc e.1 (f e)) m
        = m ++ l.map (fun e => (e.1, f e)) := by
  intro l
  induction l with
  | nil => simp
  | cons e rest ih =>
    intro m hfresh hnd
    rw [List.map_cons, List.nodup_cons] at hnd
    have h1 : dictInsert m e.1 (f e) = m ++ [(e.1, f e)] :=
      dictInsert_of_not_mem (hfresh e (List.mem_cons_self e rest)) (f e)
    have h2 : ∀ e' ∈ rest, e'.1 ∉ (m ++ [(e.1, f e)]).map Prod.fst := by
      intro e' he'
      rw [List.map_append, List.mem_append]
      rintro (hc | hc)
      · exact hfresh e' (List.mem_cons_of_mem e he') hc
      · simp only [List.map_cons, List.map_nil, List.mem_singleton] at hc
        exact hnd.1 (hc ▸ List.mem_map_of_mem Prod.fst he')
    calc (e :: rest).foldl (fun acc e => dictInsert acc e.1 (f e)) m
        = rest.foldl (fun acc e => dictInsert acc e.1 (f e)) (m ++ [(e.1, f e)]) := by
          rw [List.foldl_cons, h1]
      _ = m ++ [(e.1, f e)] ++ rest.map (fun e => (e.1, f e)) := ih _ h2 hnd.2
      _ = m ++ (e :: rest).map (fun e => (e.1, f e)) := by
          rw [List.append_assoc, List.map_cons]
          rfl

lemma dictGet_foldl_dictInsert_ne {α : Type} (f : String × α → α) :
    ∀ (l m : List (String × α)) (k : String), (∀ e ∈ l, e.1 ≠ k) →
      dictGet (l.foldl (fun acc e => dictInsert acc e.1 (f e)) m) k = dictGet m k := by
  intro l
  induction l with
  | nil => intro m k _; rfl
  | cons e rest ih =>
    intro m k h
    rw [List.foldl_cons, ih _ k (fun e' he' => h e' (List.mem_cons_of_mem e he')),
      dictGet_dictInsert_ne m (h e (List.mem_cons_self e rest)) (f e)]

/-- `ChangeTracker._jobs_differ`: compares exactly
title, team, location, employment_type, description. -/
def jobs_differ (job1 job2 : JobPosting) : Bool :=
  job1.title != job2.title || job1.team != job2.team || job1.location != job2.location ||
    job1.employment_type != job2.employment_type || job1.description != job2.description

/-- The mutation applied to a brand-new job (status NEW, both dates set to now). -/
def markNew (now : DateTime) (j : JobPosting) : JobPosting :=
  { j with status := JobStatus.new, first_seen := now, last_seen := now }

/-- The mutation applied to a changed common job (status UPDATED, first_seen
preserved from the previous record, last_seen and updated_at set to now). -/
def markUpdated (now : DateTime) (p j : JobPosting) : JobPosting :=
  { j with
    status := JobStatus.updated
    first_seen := p.first_seen
    last_seen := now
    updated_at := some now }

/-- The mutation applied to an unchanged common job (status ACTIVE, first_seen
preserved, last_seen set to now, no event). -/
def markActive (now : DateTime) (p j : JobPosting) : JobPosting :=
  { j with status := JobStatus.active, first_seen := p.first_seen, last_seen := now }

/-- How `process_new_scraping` rewrites one entry of `current_jobs` whose key is
`k`, according to whether `k` is new or common and whether the job changed. -/
def classifyJob (previous : List (String × JobPosting)) (now : DateTime) (k : String)
    (j : JobPosting) : JobPosting :=
  match dictGet previous k with
  | none => markNew now j
  | some p => if jobs_differ j p then markUpdated now p j else markActive now p j

/-- The `appeared` event emitted for a current entry, when its key is new. -/
def appearedEventFor (previous : List (String × JobPosting)) (now : DateTime) (k : String)
    (j : JobPosting) : Option JobEvent :=
  match dictGet previous k with
  | none => some { event_type := "appeared", job_id := k, timestamp := now,
                   new_data := some (markNew now j).to_dict }
  | some _ => none

/-- The `updated` event emitted for a current entry, when its key is common and
the compared fields differ. -/
def updatedEventFor (previous : List (String × JobPosting)) (now : DateTime) (k : String)
    (j : JobPosting) : Option JobEvent :=
  match dictGet previous k with
  | none => none
  | some p =>
    if jobs_differ j p then
      some { event_type := "updated", job_id := k, timestamp := now,
             previous_data := some p.to_dict, new_data := some (markUpdated now p j).to_dict }
    else none

/-- The closed copy built for a disappeared posting: the listed fields are copied,
status becomes CLOSED, and the fields the copy omits (salary_range, remote_policy,
experience_level) fall back to their dataclass defaults. -/
def closeJob (p : JobPosting) : JobPosting :=
  { job_id := p.job_id, source := p.source, company_name := p.company_name,
    external_id := p.external_id, title := p.title, team := p.team, location := p.location,
    employment_type := p.employment_type, description := p.description,
    requirements := p.requirements, job_url := p.job_url, apply_url := p.apply_url,
    source_url := p.source_url, first_seen := p.first_seen, last_seen := p.last_seen,
    updated_at := p.updated_at, status := JobStatus.closed, raw_data := p.raw_data }

/-- `ChangeTracker.process_new_scraping`: returns this run's event list and the
registry (`current_jobs`) it leaves behind. The three event blocks are emitted in
the order of the code's three loops; set iteration is modelled as iteration over
the corresponding dict in insertion order. -/
def process_new_scraping (previous : List (String × JobPosting))
    (new_jobs : List JobPosting) (now : DateTime) :
    List JobEvent × List (String × JobPosting) :=
  let current0 := indexJobs new_jobs
  let appearedEvents := current0.filterMap (fun e => appearedEventFor previous now e.1 e.2)
  let updatedEvents := current0.filterMap (fun e => updatedEventFor previous now e.1 e.2)
  let current1 := current0.map (fun e => (e.1, classifyJob previous now e.1 e.2))
  let closedEntries := previous.filter (fun e => (dictGet current0 e.1).isNone)
  let closedEvents := closedEntries.map (fun e =>
    ({ event_type := "closed", job_id := e.1, timestamp := now,
       previous_data := some e.2.to_dict } : JobEvent))
  let current2 := closedEntries.foldl (fun m e => dictInsert m e.1 (closeJob e.2)) current1
  (appearedEvents ++ updatedEvents ++ closedEvents, current2)

/-- `ChangeTracker._save_registry`: the write attempt is wrapped in
`try/except Exception`, whose handler only prints — so the function returns
normally (with its printed lines) no matter how the write went. -/
def save_registry (write_result : Except String Unit) : Except String (List String) :=
  match write_result with
  | Except.ok _ => Except.ok ["Saved jobs to registry"]
  | Except.error e => Except.ok ["Error saving registry: " ++ e]

/-- `process_new_scraping` including its final `self._save_registry()` call, as the
caller observes it: an `Except.error` would model an exception escaping to the
caller. -/
def process_new_scraping_run (write_result : Except String Unit)
    (previous : List (String × JobPosting)) (new_jobs : List JobPosting) (now : DateTime) :
    Except String (List JobEvent × List (String × JobPosting)) :=
  let r := process_new_scraping previous new_jobs now
  match save_registry write_result with
  | Except.ok _ => Except.ok r
  | Except.error e => Except.error e

/-- `ChangeTracker.get_current_active_jobs`: filters `current_jobs.values()` by
`is_active`. -/
def get_current_active_jobs (current_jobs : List (String × JobPosting)) : List JobPosting :=
  (current_jobs.map Prod.snd).filter (fun j => j.is_active)

/-- `OutputGenerator._generate_registry_csv`: the rows written to the registry CSV
(`to_dict` of each job from `get_current_active_jobs`); `none` when no file is
written because the active list is empty. -/
def generate_registry_csv (current_jobs : List (String × JobPosting)) : Option (List JobDict) :=
  let active_jobs := get_current_active_jobs current_jobs
  if active_jobs.isEmpty then none else some (active_jobs.map JobPosting.to_dict)

/-- `current_job_ids` of a run (keys of the freshly indexed aggregate). -/
def current_job_ids (new_jobs : List JobPosting) : Finset String :=
  ((indexJobs new_jobs).map Prod.fst).toFinset

/-- `previous_job_ids` of a run (keys of the loaded registry). -/
def previous_job_ids (previous : List (String × JobPosting)) : Finset String :=
  (previous.map Prod.fst).toFinset

/-- `new_job_ids = current_job_ids - previous_job_ids`. -/
def new_job_ids (new_jobs : List JobPosting) (previous : List (String × JobPosting)) :
    Finset String :=
  current_job_ids new_jobs \ previous_job_ids previous

/-- `updated_job_ids = current_job_ids & previous_job_ids` (the common keys). -/
def updated_job_ids (new_jobs : List JobPosting) (previous : List (String × JobPosting)) :
    Finset String :=
  current_job_ids new_jobs ∩ previous_job_ids previous

/-- `closed_job_ids = previous_job_ids - current_job_ids`. -/
def closed_job_ids (new_jobs : List JobPosting) (previous : List (String × JobPosting)) :
    Finset String :=
  previous_job_ids previous \ current_job_ids new_jobs

/-- C8: the three derived key sets are pairwise disjoint and partition the union
of the current and previous key sets. -/
theorem C8_key_sets_partition (new_jobs : List JobPosting)
    (previous : List (String × JobPosting)) :
    Disjoint (new_job_ids new_jobs previous) (updated_job_ids new_jobs previous) ∧
    Disjoint (new_job_ids new_jobs previous) (closed_job_ids new_jobs previous) ∧
    Disjoint (updated_job_ids new_jobs previous) (closed_job_ids new_jobs previous) ∧
    new_job_ids new_jobs previous ∪ updated_job_ids new_jobs previous ∪
        closed_job_ids new_jobs previous
      = current_job_ids new_jobs ∪ previous_job_ids previous := by
  unfold new_job_ids updated_job_ids closed_job_ids
  refine ⟨?_, ?_, ?_, ?_⟩
  · rw [Finset.disjoint_left]
    intro a ha hb
    rw [Finset.mem_sdiff] at ha
    rw [Finset.mem_inter] at hb
    exact ha.2 hb.2
  · rw [Finset.disjoint_left]
    intro a ha hb
    rw [Finset.mem_sdiff] at ha hb
    exact hb.2 ha.1
  · rw [Finset.disjoint_left]
    intro a ha hb
    rw [Finset.mem_inter] at ha
    rw [Finset.mem_sdiff] at hb
    exact hb.2 ha.1
  · ext a
    simp only [Finset.mem_union, Finset.mem_sdiff, Finset.mem_inter]
    tauto

/-- C3 counterexample: a failing registry write (here "disk full") is NOT
reported to the caller of the reconciliation — the run returns `Except.ok`
with its usual results. -/
theorem C3_counterexample :
    process_new_scraping_run (Except.error "disk full") [] [] 0 = Except.ok ([], []) := rfl

/-- C3 amended: a persistence failure after a successful reconciliation is caught
inside `_save_registry`, only logged ("Error saving registry: ..."), and never
propagated: the run's caller always receives the ordinary reconciliation result. -/
theorem C3_persistence_failure_only_logged (write_result : Except String Unit)
    (previous : List (String × JobPosting)) (new_jobs : List JobPosting) (now : DateTime) :
    process_new_scraping_run write_result previous new_jobs now
      = Except.ok (process_new_scraping previous new_jobs now) ∧
    (∀ e : String, save_registry (Except.error e) = Except.ok ["Error saving registry: " ++ e]) := by
  constructor
  · cases write_result <;> rfl
  · intro e
    rfl

/-- A minimal concrete posting (used by concrete counterexamples below). -/
def sampleJob (id_str : String) : JobPosting :=
  { job_id := id_str, source := JobSource.lever, company_name := "acme",
    external_id := id_str, title := "Engineer", job_url := "https://jobs.example/a",
    source_url := "https://jobs.example", first_seen := 0, last_seen := 0 }

/-- C4 counterexample: after a fresh run the lone posting has status NEW (not
CLOSED), yet the registry CSV export excludes it — `get_current_active_jobs`
keeps only status ACTIVE, so the registry file does not contain every
non-CLOSED posting. -/
theorem C4_counterexample :
    get_current_active_jobs (process_new_scraping [] [sampleJob "a"] 1).2 = [] ∧
    ((process_new_scraping [] [sampleJob "a"] 1).2.map Prod.snd).map JobPosting.status
      = [JobStatus.new] := by
  constructor <;> rfl

/-- C4 amended: the registry file written by the Output Sink contains exactly the
postings whose status is ACTIVE — NEW, UPDATED and CLOSED postings are all
excluded (not merely CLOSED ones). -/
theorem C4_registry_csv_contains_exactly_active (current_jobs : List (String × JobPosting)) :
    (∀ j : JobPosting, j ∈ get_current_active_jobs current_jobs ↔
        j ∈ current_jobs.map Prod.snd ∧ j.status = JobStatus.active) ∧
    (∀ rows : List JobDict, generate_registry_csv current_jobs = some rows →
        rows = (get_current_active_jobs current_jobs).map JobPosting.to_dict) := by
  constructor
  · intro j
    simp [get_current_active_jobs, List.mem_filter, JobPosting.is_active]
  · intro rows h
    unfold generate_registry_csv at h
    by_cases he : (get_current_active_jobs current_jobs).isEmpty
    · simp [he] at h
    · simp [he] at h
      exact h.symm

/-- Witness for C4's amended theorem at a concrete registry. -/
theorem C4_registry_csv_contains_exactly_active_witness :
    sampleJob "a" ∈ get_current_active_jobs [("a", sampleJob "a")] ↔
      sampleJob "a" ∈ [("a", sampleJob "a")].map Prod.snd ∧
        (sampleJob "a").status = JobStatus.active :=
  (C4_registry_csv_contains_exactly_active [("a", sampleJob "a")]).1 (sampleJob "a")

lemma dictGet_some_mem {α : Type} {m : List (String × α)} {k : String} {v : α}
    (h : dictGet m k = some v) : (k, v) ∈ m := by
  induction m with
  | nil => cases h
  | cons e rest ih =>
    obtain ⟨k', v'⟩ := e
    rw [dictGet] at h
    by_cases hk : k' = k
    · rw [if_pos hk] at h
      injection h with h2
      subst hk
      subst h2
      exact List.mem_cons_self _ _
    · rw [if_neg hk] at h
      exact List.mem_cons_of_mem _ (ih h)

/-- Unfolding of `process_new_scraping` into its three event blocks and the final
registry fold. -/
lemma process_new_scraping_def (previous : List (String × JobPosting))
    (new_jobs : List JobPosting) (now : DateTime) :
    process_new_scraping previous new_jobs now
      = ((indexJobs new_jobs).filterMap (fun e => appearedEventFor previous now e.1 e.2)
          ++ (indexJobs new_jobs).filterMap (fun e => updatedEventFor previous now e.1 e.2)
          ++ (previous.filter (fun e => (dictGet (indexJobs new_jobs) e.1).isNone)).map
              (fun e => ({ event_type := "closed", job_id := e.1, timestamp := now,
                           previous_data := some e.2.to_dict } : JobEvent)),
         (previous.filter (fun e => (dictGet (indexJobs new_jobs) e.1).isNone)).foldl
           (fun m e => dictInsert m e.1 (closeJob e.2))
           ((indexJobs new_jobs).map (fun e => (e.1, classifyJob previous now e.1 e.2)))) :=
  rfl

lemma appearedEventFor_some {previous : List (String × JobPosting)} {now : DateTime}
    {k : String} {j : JobPosting} {ev : JobEvent}
    (h : appearedEventFor previous now k j = some ev) :
    ev.event_type = "appeared" ∧ ev.job_id = k ∧ dictGet previous k = none := by
  rcases hd : dictGet previous k with _ | p
  · simp only [appearedEventFor, hd, Option.some.injEq] at h
    subst h
    exact ⟨rfl, rfl, rfl⟩
  · simp [appearedEventFor, hd] at h

lemma updatedEventFor_some {previous : List (String × JobPosting)} {now : DateTime}
    {k : String} {j : JobPosting} {ev : JobEvent}
    (h : updatedEventFor previous now k j = some ev) :
    ev.event_type = "updated" ∧ ev.job_id = k ∧
      ∃ p, dictGet previous k = some p ∧ jobs_differ j p = true := by
  rcases hd : dictGet previous k with _ | p
  · simp [updatedEventFor, hd] at h
  · by_cases hdiff : jobs_differ j p = true
    · simp only [updatedEventFor, hd, hdiff, if_true, Option.some.injEq] at h
      subst h
      exact ⟨rfl, rfl, p, rfl, hdiff⟩
    · simp [updatedEventFor, hd, hdiff] at h

lemma updatedEventFor_eq_some {previous : List (String × JobPosting)} {now : DateTime}
    {k : String} {j p : JobPosting} (hd : dictGet previous k = some p)
    (hdiff : jobs_differ j p = true) :
    updatedEventFor previous now k j
      = some { event_type := "updated", job_id := k, timestamp := now,
               previous_data := some p.to_dict,
               new_data := some (markUpdated now p j).to_dict } := by
  simp [updatedEventFor, hd, hdiff]

lemma jobs_differ_iff (a b : JobPosting) : jobs_differ a b = true ↔
    (a.title ≠ b.title ∨ a.team ≠ b.team ∨ a.location ≠ b.location ∨
     a.employment_type ≠ b.employment_type ∨ a.description ≠ b.description) := by
  simp only [jobs_differ, Bool.or_eq_true, bne_iff_ne]
  tauto

/-- C6: the reconciliation emits an `updated` event for a job_id exactly when the
id is common to the current aggregate and the previous registry and at least one
of title, team, location, employment_type, description differs between the two
versions; a difference confined to `raw_data` or to any URL field (absent from the
right-hand side) can never produce an `updated` event, while a title difference
does. -/
theorem C6_updated_event_iff_field_change (previous : List (String × JobPosting))
    (new_jobs : List JobPosting) (now : DateTime) (k : String) :
    (∃ ev ∈ (process_new_scraping previous new_jobs now).1,
        ev.event_type = "updated" ∧ ev.job_id = k)
      ↔ ∃ cur p, dictGet (indexJobs new_jobs) k = some cur ∧ dictGet previous k = some p ∧
          (cur.title ≠ p.title ∨ cur.team ≠ p.team ∨ cur.location ≠ p.location ∨
           cur.employment_type ≠ p.employment_type ∨ cur.description ≠ p.description) := by
  rw [process_new_scraping_def]
  constructor
  · rintro ⟨ev, hev, htype, hid⟩
    simp only [List.mem_append] at hev
    rcases hev with (ha | hu) | hc
    · obtain ⟨e, _, hsome⟩ := List.mem_filterMap.mp ha
      have ht := (appearedEventFor_some hsome).1
      rw [htype] at ht
      exact absurd ht (by decide)
    · obtain ⟨e, he, hsome⟩ := List.mem_filterMap.mp hu
      obtain ⟨_, hid2, p, hp, hdiff⟩ := updatedEventFor_some hsome
      have hk : e.1 = k := hid2 ▸ hid
      subst hk
      have hcur : dictGet (indexJobs new_jobs) e.1 = some e.2 :=
        dictGet_of_mem_nodup (indexJobs_keys_nodup new_jobs) he
      exact ⟨e.2, p, hcur, hp, (jobs_differ_iff _ _).mp hdiff⟩
    · obtain ⟨e, _, hev⟩ := List.mem_map.mp hc
      subst hev
      simp at htype
  · rintro ⟨cur, p, hcur, hp, hdiff⟩
    refine ⟨{ event_type := "updated", job_id := k, timestamp := now,
              previous_data := some p.to_dict,
              new_data := some (markUpdated now p cur).to_dict }, ?_, rfl, rfl⟩
    simp only [List.mem_append]
    left
    right
    exact List.mem_filterMap.mpr ⟨(k, cur), dictGet_some_mem hcur,
      updatedEventFor_eq_some hp ((jobs_differ_iff _ _).mpr hdiff)⟩

/-- A concrete posting with a chosen title, for witnesses and counterexamples. -/
def sampleJobTitled (id_str title_str : String) : JobPosting :=
  { sampleJob id_str with title := title_str }

/-- Witness for C6: a concrete title change produces an `updated` event. -/
theorem C6_updated_event_iff_field_change_witness :
    ∃ ev ∈ (process_new_scraping [("a", sampleJob "a")]
        [sampleJobTitled "a" "Senior Engineer"] 2).1,
      ev.event_type = "updated" ∧ ev.job_id = "a" :=
  (C6_updated_event_iff_field_change [("a", sampleJob "a")]
      [sampleJobTitled "a" "Senior Engineer"] 2 "a").mpr
    ⟨sampleJobTitled "a" "Senior Engineer", sampleJob "a", rfl, rfl,
      Or.inl (by decide)⟩

lemma keys_mapClose (m : List (String × JobPosting)) :
    (m.map (fun e => (e.1, closeJob e.2))).map Prod.fst = m.map Prod.fst := by
  simp [List.map_map]

/-- `jobs_differ` never sees the status/date mutations of a run. -/
lemma jobs_differ_markNew (now : DateTime) (j : JobPosting) :
    jobs_differ j (markNew now j) = false := by
  simp [jobs_differ, markNew]

lemma jobs_differ_markUpdated (now : DateTime) (p j : JobPosting) :
    jobs_differ j (markUpdated now p j) = false := by
  simp [jobs_differ, markUpdated]

lemma jobs_differ_markActive (now : DateTime) (p j : JobPosting) :
    jobs_differ j (markActive now p j) = false := by
  simp [jobs_differ, markActive]

lemma classifyJob_of_get_some {previous : List (String × JobPosting)} (now : DateTime)
    {k : String} {j p : JobPosting} (hd : dictGet previous k = some p)
    (hdiff : jobs_differ j p = false) :
    classifyJob previous now k j = markActive now p j := by
  simp [classifyJob, hd, hdiff]

/-- The events component of `process_new_scraping`, unfolded. -/
lemma process_new_scraping_fst (previous : List (String × JobPosting))
    (new_jobs : List JobPosting) (now : DateTime) :
    (process_new_scraping previous new_jobs now).1
      = (indexJobs new_jobs).filterMap (fun e => appearedEventFor previous now e.1 e.2)
        ++ (indexJobs new_jobs).filterMap (fun e => updatedEventFor previous now e.1 e.2)
        ++ (previous.filter (fun e => (dictGet (indexJobs new_jobs) e.1).isNone)).map
            (fun e => ({ event_type := "closed", job_id := e.1, timestamp := now,
                         previous_data := some e.2.to_dict } : JobEvent)) :=
  rfl

/-- The registry component of `process_new_scraping`, unfolded. -/
lemma process_new_scraping_snd_raw (previous : List (String × JobPosting))
    (new_jobs : List JobPosting) (now : DateTime) :
    (process_new_scraping previous new_jobs now).2
      = (previous.filter (fun e => (dictGet (indexJobs new_jobs) e.1).isNone)).foldl
          (fun m e => dictInsert m e.1 (closeJob e.2))
          ((indexJobs new_jobs).map (fun e => (e.1, classifyJob previous now e.1 e.2))) :=
  rfl

/-- With duplicate-free previous keys (as a loaded Python dict always has), the
output registry is the classified current entries followed by the closed copies
of the disappeared previous entries. -/
lemma process_new_scraping_snd (previous : List (String × JobPosting))
    (new_jobs : List JobPosting) (now : DateTime)
    (hnd : (previous.map Prod.fst).Nodup) :
    (process_new_scraping previous new_jobs now).2
      = (indexJobs new_jobs).map (fun e => (e.1, classifyJob previous now e.1 e.2))
        ++ (previous.filter (fun e => (dictGet (indexJobs new_jobs) e.1).isNone)).map
            (fun e => (e.1, closeJob e.2)) := by
  rw [process_new_scraping_snd_raw]
  have hfresh : ∀ e ∈ previous.filter (fun e => (dictGet (indexJobs new_jobs) e.1).isNone),
      e.1 ∉ ((indexJobs new_jobs).map
        (fun e => (e.1, classifyJob previous now e.1 e.2))).map Prod.fst := by
    intro e he
    rw [keys_mapEntry]
    have hm := (List.mem_filter.mp he).2
    exact (dictGet_eq_none_iff _ _).mp (Option.isNone_iff_eq_none.mp hm)
  have hnod2 : ((previous.filter
      (fun e => (dictGet (indexJobs new_jobs) e.1).isNone)).map Prod.fst).Nodup :=
    List.Nodup.sublist (List.Sublist.map Prod.fst (List.filter_sublist previous)) hnd
  exact foldl_dictInsert_fresh (fun e => closeJob e.2) _ _ hfresh hnod2

/-- The keys of the output registry are duplicate-free again. -/
lemma process_new_scraping_keys_nodup (previous : List (String × JobPosting))
    (new_jobs : List JobPosting) (now : DateTime)
    (hnd : (previous.map Prod.fst).Nodup) :
    ((process_new_scraping previous new_jobs now).2.map Prod.fst).Nodup := by
  rw [process_new_scraping_snd previous new_jobs now hnd, List.map_append, keys_mapEntry,
    keys_mapClose, List.nodup_append]
  refine ⟨indexJobs_keys_nodup _,
    List.Nodup.sublist (List.Sublist.map Prod.fst (List.filter_sublist previous)) hnd, ?_⟩
  intro a haD haC
  obtain ⟨e, he, rfl⟩ := List.mem_map.mp haC
  have hpred := (List.mem_filter.mp he).2
  rw [Option.isNone_iff_eq_none, dictGet_eq_none_iff] at hpred
  exact hpred haD

/-- Looking one of this run's aggregate entries up in the output registry returns
its classified version. -/
lemma dictGet_processed_of_mem {previous : List (String × JobPosting)}
    {new_jobs : List JobPosting} (now : DateTime)
    (hnd : (previous.map Prod.fst).Nodup) {e : String × JobPosting}
    (he : e ∈ indexJobs new_jobs) :
    dictGet (process_new_scraping previous new_jobs now).2 e.1
      = some (classifyJob previous now e.1 e.2) := by
  rw [process_new_scraping_snd previous new_jobs now hnd, dictGet_append, dictGet_mapEntry]
  have hg : dictGet (indexJobs new_jobs) e.1 = some e.2 :=
    dictGet_of_mem_nodup (indexJobs_keys_nodup new_jobs) (by rw [Prod.mk.eta]; exact he)
  rw [hg]
  rfl

/-- The run's status/date mutations never touch the compared field set, so a job
never differs from its own classified version. -/
lemma jobs_differ_classifyJob (previous : List (String × JobPosting)) (now : DateTime)
    (k : String) (j : JobPosting) :
    jobs_differ j (classifyJob previous now k j) = false := by
  rcases hd : dictGet previous k with _ | p
  · simp only [classifyJob, hd]
    exact jobs_differ_markNew now j
  · simp only [classifyJob, hd]
    by_cases hdiff : jobs_differ j p = true
    · rw [if_pos hdiff]
      exact jobs_differ_markUpdated now p j
    · rw [if_neg hdiff]
      exact jobs_differ_markActive now p j

/-- The closed entries a second identical run sees are exactly the closed copies
the first run appended. -/
lemma second_run_closed_entries (previous : List (String × JobPosting))
    (new_jobs : List JobPosting) (t1 : DateTime)
    (hnd : (previous.map Prod.fst).Nodup) :
    (process_new_scraping previous new_jobs t1).2.filter
        (fun e => (dictGet (indexJobs new_jobs) e.1).isNone)
      = (previous.filter (fun e => (dictGet (indexJobs new_jobs) e.1).isNone)).map
          (fun e => (e.1, closeJob e.2)) := by
  rw [process_new_scraping_snd previous new_jobs t1 hnd, List.filter_append]
  have h1 : ((indexJobs new_jobs).map
      (fun e => (e.1, classifyJob previous t1 e.1 e.2))).filter
        (fun e => (dictGet (indexJobs new_jobs) e.1).isNone) = [] := by
    rw [List.filter_eq_nil_iff]
    intro a ha
    obtain ⟨e, he, rfl⟩ := List.mem_map.mp ha
    have hg : dictGet (indexJobs new_jobs) e.1 = some e.2 :=
      dictGet_of_mem_nodup (indexJobs_keys_nodup new_jobs) (by rw [Prod.mk.eta]; exact he)
    simp [hg]
  have h2 : ((previous.filter (fun e => (dictGet (indexJobs new_jobs) e.1).isNone)).map
      (fun e => (e.1, closeJob e.2))).filter
        (fun e => (dictGet (indexJobs new_jobs) e.1).isNone)
      = (previous.filter (fun e => (dictGet (indexJobs new_jobs) e.1).isNone)).map
          (fun e => (e.1, closeJob e.2)) := by
    rw [List.filter_eq_self]
    intro a ha
    obtain ⟨e, he, rfl⟩ := List.mem_map.mp ha
    simpa using (List.mem_filter.mp he).2
  rw [h1, h2, List.nil_append]

/-- Feeding a run's output registry into a second run over the same aggregate
produces exactly one `closed` event per closed copy — nothing else. -/
lemma second_run_events (previous : List (String × JobPosting))
    (new_jobs : List JobPosting) (t1 t2 : DateTime)
    (hnd : (previous.map Prod.fst).Nodup) :
    (process_new_scraping (process_new_scraping previous new_jobs t1).2 new_jobs t2).1
      = (previous.filter (fun e => (dictGet (indexJobs new_jobs) e.1).isNone)).map
          (fun e => ({ event_type := "closed", job_id := e.1, timestamp := t2,
                       previous_data := some (closeJob e.2).to_dict } : JobEvent)) := by
  rw [process_new_scraping_fst]
  have hA : (indexJobs new_jobs).filterMap
      (fun e => appearedEventFor (process_new_scraping previous new_jobs t1).2 t2 e.1 e.2)
      = [] := by
    rw [List.filterMap_eq_nil_iff]
    intro e he
    have hget := dictGet_processed_of_mem t1 hnd he
    simp [appearedEventFor, hget]
  have hU : (indexJobs new_jobs).filterMap
      (fun e => updatedEventFor (process_new_scraping previous new_jobs t1).2 t2 e.1 e.2)
      = [] := by
    rw [List.filterMap_eq_nil_iff]
    intro e he
    have hget := dictGet_processed_of_mem t1 hnd he
    simp [updatedEventFor, hget, jobs_differ_classifyJob]
  rw [hA, hU, second_run_closed_entries previous new_jobs t1 hnd, List.nil_append,
    List.nil_append, List.map_map]
  rfl

/-- The registry a second identical run leaves behind: every aggregate entry
reclassified against the first run's registry, and the closed copies re-closed. -/
lemma second_run_registry (previous : List (String × JobPosting))
    (new_jobs : List JobPosting) (t1 t2 : DateTime)
    (hnd : (previous.map Prod.fst).Nodup) :
    (process_new_scraping (process_new_scraping previous new_jobs t1).2 new_jobs t2).2
      = (indexJobs new_jobs).map (fun e =>
          (e.1, classifyJob (process_new_scraping previous new_jobs t1).2 t2 e.1 e.2))
        ++ (previous.filter (fun e => (dictGet (indexJobs new_jobs) e.1).isNone)).map
            (fun e => (e.1, closeJob (closeJob e.2))) := by
  rw [process_new_scraping_snd _ new_jobs t2
      (process_new_scraping_keys_nodup previous new_jobs t1 hnd),
    second_run_closed_entries previous new_jobs t1 hnd, List.map_map]
  rfl

/-- C1 counterexample: reconciling aggregate [a] against registry {b} and then
reconciling the same aggregate against the output registry yields a second
`closed` event for b — not zero `closed` events as claimed. -/
theorem C1_counterexample :
    ¬ (((process_new_scraping
          (process_new_scraping [("b", sampleJob "b")] [sampleJob "a"] 1).2
          [sampleJob "a"] 2).1.filter (fun ev => ev.event_type == "closed")).length = 0) := by
  decide

/-- C1 amended: reconciling the same aggregate a second time against the first
run's output registry yields zero `appeared` and zero `updated` events — every
second-run event is a `closed` re-emission, one per previous-registry entry
absent from the aggregate (the CLOSED copies persisted into the registry close
again, forever); every aggregate posting is reclassified ACTIVE and every other
registry entry stays CLOSED. -/
theorem C1_second_run_only_closed_events (previous : List (String × JobPosting))
    (new_jobs : List JobPosting) (t1 t2 : DateTime)
    (hnd : (previous.map Prod.fst).Nodup) :
    ((process_new_scraping (process_new_scraping previous new_jobs t1).2 new_jobs t2).1.all
        (fun ev => ev.event_type == "closed")) = true ∧
    ((process_new_scraping (process_new_scraping previous new_jobs t1).2 new_jobs t2).1.map
        (fun ev => ev.job_id))
      = (previous.filter (fun e => (dictGet (indexJobs new_jobs) e.1).isNone)).map Prod.fst ∧
    ((process_new_scraping (process_new_scraping previous new_jobs t1).2 new_jobs t2).2.all
        (fun en => en.2.status ==
          (if (dictGet (indexJobs new_jobs) en.1).isSome then JobStatus.active
           else JobStatus.closed))) = true := by
  refine ⟨?_, ?_, ?_⟩
  · rw [second_run_events previous new_jobs t1 t2 hnd, List.all_eq_true]
    intro ev hev
    obtain ⟨e, _, rfl⟩ := List.mem_map.mp hev
    rfl
  · rw [second_run_events previous new_jobs t1 t2 hnd, List.map_map]
    rfl
  · rw [second_run_registry previous new_jobs t1 t2 hnd, List.all_append, Bool.and_eq_true]
    constructor
    · rw [List.all_eq_true]
      intro en hen
      obtain ⟨e, he, rfl⟩ := List.mem_map.mp hen
      have hget := dictGet_processed_of_mem t1 hnd he
      have hstep := classifyJob_of_get_some t2 hget
        (jobs_differ_classifyJob previous t1 e.1 e.2)
      have hg : dictGet (indexJobs new_jobs) e.1 = some e.2 :=
        dictGet_of_mem_nodup (indexJobs_keys_nodup new_jobs) (by rw [Prod.mk.eta]; exact he)
      simp [hstep, hg, markActive]
    · rw [List.all_eq_true]
      intro en hen
      obtain ⟨e, he, rfl⟩ := List.mem_map.mp hen
      have hpred := Option.isNone_iff_eq_none.mp (List.mem_filter.mp he).2
      simp [closeJob, hpred]

/-- Witness for C1's amended theorem on the counterexample scenario. -/
theorem C1_second_run_only_closed_events_witness :
    (([("b", sampleJob "b")].map Prod.fst).Nodup) ∧
    ((process_new_scraping (process_new_scraping [("b", sampleJob "b")] [sampleJob "a"] 1).2
        [sampleJob "a"] 2).1.map (fun ev => ev.job_id))
      = ([("b", sampleJob "b")].filter
          (fun e => (dictGet (indexJobs [sampleJob "a"]) e.1).isNone)).map Prod.fst :=
  ⟨by decide,
    (C1_second_run_only_closed_events [("b", sampleJob "b")] [sampleJob "a"] 1 2
      (by decide)).2.1⟩

/-- C2 counterexample: job x is closed in run 1 and reappears unchanged in run 2;
run 2 emits NO event at all (in particular no `appeared`) and classifies x
ACTIVE, not NEW — because the closed-inclusive registry still holds x's record. -/
theorem C2_counterexample :
    (process_new_scraping (process_new_scraping [("x", sampleJob "x")] [] 1).2
        [sampleJob "x"] 2).1 = [] ∧
    (process_new_scraping (process_new_scraping [("x", sampleJob "x")] [] 1).2
        [sampleJob "x"] 2).2.map (fun e => e.2.status) = [JobStatus.active] := by
  constructor <;> rfl

/-- C2 amended: a job_id present in the previous registry as a CLOSED record and
present again in the aggregate is a common id, not a new one: the engine emits no
`appeared` event for it and classifies it ACTIVE when the compared fields are
unchanged (UPDATED when they changed) — the prior record is NOT evicted, since the
registry snapshot includes closed postings. -/
theorem C2_reappearing_closed_id_is_common (previous : List (String × JobPosting))
    (new_jobs : List JobPosting) (now : DateTime) (k : String) (cur pclosed : JobPosting)
    (hcur : dictGet (indexJobs new_jobs) k = some cur)
    (hprev : dictGet previous k = some pclosed)
    (_hclosed : pclosed.status = JobStatus.closed) :
    ((process_new_scraping previous new_jobs now).1.filter
        (fun ev => ev.event_type == "appeared" && ev.job_id == k)) = [] ∧
    (dictGet (process_new_scraping previous new_jobs now).2 k).map JobPosting.status
      = some (if jobs_differ cur pclosed then JobStatus.updated else JobStatus.active) := by
  constructor
  · rw [process_new_scraping_fst, List.filter_append, List.filter_append]
    have hA : ((indexJobs new_jobs).filterMap
        (fun e => appearedEventFor previous now e.1 e.2)).filter
          (fun ev => ev.event_type == "appeared" && ev.job_id == k) = [] := by
      rw [List.filter_eq_nil_iff]
      intro ev hev
      obtain ⟨e, _, hsome⟩ := List.mem_filterMap.mp hev
      obtain ⟨ht, hid, hnone⟩ := appearedEventFor_some hsome
      have hne : e.1 ≠ k := by
        intro h
        rw [h, hprev] at hnone
        cases hnone
      simp [ht, hid, hne]
    have hU : ((indexJobs new_jobs).filterMap
        (fun e => updatedEventFor previous now e.1 e.2)).filter
          (fun ev => ev.event_type == "appeared" && ev.job_id == k) = [] := by
      rw [List.filter_eq_nil_iff]
      intro ev hev
      obtain ⟨e, _, hsome⟩ := List.mem_filterMap.mp hev
      have ht := (updatedEventFor_some hsome).1
      simp [ht]
    have hC : ((previous.filter (fun e => (dictGet (indexJobs new_jobs) e.1).isNone)).map
        (fun e => ({ event_type := "closed", job_id := e.1, timestamp := now,
                     previous_data := some e.2.to_dict } : JobEvent))).filter
          (fun ev => ev.event_type == "appeared" && ev.job_id == k) = [] := by
      rw [List.filter_eq_nil_iff]
      intro ev hev
      obtain ⟨e, _, rfl⟩ := List.mem_map.mp hev
      simp
    rw [hA, hU, hC]
    rfl
  · rw [process_new_scraping_snd_raw]
    have hne : ∀ e ∈ previous.filter (fun e => (dictGet (indexJobs new_jobs) e.1).isNone),
        e.1 ≠ k := by
      intro e he hek
      have hpred := (List.mem_filter.mp he).2
      rw [hek, hcur] at hpred
      cases hpred
    rw [dictGet_foldl_dictInsert_ne _ _ _ _ hne, dictGet_mapEntry, hcur]
    rcases hdiff : jobs_differ cur pclosed with _ | _
    · simp [classifyJob, hprev, hdiff, markActive]
    · simp [classifyJob, hprev, hdiff, markUpdated]

/-- Witness for C2's amended theorem at a concrete closed-then-reappearing id. -/
theorem C2_reappearing_closed_id_is_common_witness :
    ((process_new_scraping [("x", closeJob (sampleJob "x"))] [sampleJob "x"] 2).1.filter
        (fun ev => ev.event_type == "appeared" && ev.job_id == "x")) = [] ∧
    (dictGet (process_new_scraping [("x", closeJob (sampleJob "x"))]
        [sampleJob "x"] 2).2 "x").map JobPosting.status
      = some (if jobs_differ (sampleJob "x") (closeJob (sampleJob "x")) then JobStatus.updated
              else JobStatus.active) :=
  C2_reappearing_closed_id_is_common [("x", closeJob (sampleJob "x"))] [sampleJob "x"] 2 "x"
    (sampleJob "x") (closeJob (sampleJob "x")) rfl rfl rfl

/- Source adapters (scrapers/). Each `_parse_job*` is modelled over the typed raw
item its platform serves; raised exceptions inside the per-item try blocks become
`none` results. -/

/-- Python `str.strip()`: drops leading and trailing whitespace. -/
def pyStrip (s : String) : String :=
  ⟨((s.data.dropWhile Char.isWhitespace).reverse.dropWhile Char.isWhitespace).reverse⟩

/-- `BaseScraper.normalize_text`. -/
def normalize_text : Option String → Option String
  | none => none
  | some s => some (pyStrip s)

/-- Python truthiness test `not s` for an optional string. -/
def pyFalsyOptStr : Option String → Bool
  | none => true
  | some s => s.isEmpty

/-- Python `str(x)` of an optional string value (`str(None)` is the string
"None"). -/
def pyStr : Option String → String
  | some s => s
  | none => "None"

/-- Python `a or b` on optional strings: yields `b` whenever `a` is falsy
(absent or empty). -/
def pyOr (a b : Option String) : Option String :=
  match a with
  | some s => if s.isEmpty then b else some s
  | none => b

/-- Python `pat in s` substring test. -/
def strContains (s pat : String) : Bool := (s.splitOn pat).length != 1

/-- `BaseScraper.create_job_id`: source value, company name and external id
joined by underscores. -/
def create_job_id (source : JobSource) (company_name external_id : String) : String :=
  source.value ++ "_" ++ company_name ++ "_" ++ external_id

/-- `LeverScraper._parse_job_data`. The guard checks only the normalized `text`
title; `external_id` is `str(job_data.get('id', ''))` and is never validated. -/
def LeverScraper.parse_job_data (company_name company_display_name base_url : String)
    (now : DateTime) (item : LeverItem) : Option JobPosting :=
  let external_id := item.id.getD ""
  let title := normalize_text (some (item.text.getD ""))
  if pyFalsyOptStr title then none
  else
    let job_url :=
      match item.hostedUrl with
      | some u => u
      | none =>
        match item.applyUrl with
        | some u => u
        | none => base_url ++ "/" ++ external_id
    let team :=
      match dictGet item.categories "team" with
      | some t => normalize_text (some t)
      | none =>
        match dictGet item.categories "department" with
        | some d => normalize_text (some d)
        | none => none
    let location :=
      match item.location with
      | some l => normalize_text (some l)
      | none =>
        match item.locationText with
        | some l => normalize_text (some l)
        | none =>
          match item.workplaceAddress with
          | some addr =>
            some (String.intercalate ", "
              ([addr.city.getD "", addr.country.getD ""].filter (fun s => !s.isEmpty)))
          | none => none
    let employment_type :=
      match dictGet item.categories "commitment" with
      | some c => normalize_text (some c)
      | none =>
        match item.type with
        | some t => normalize_text (some t)
        | none => none
    let description :=
      match item.description with
      | some d => normalize_text (some d)
      | none =>
        match item.descriptionPlain with
        | some d => normalize_text (some d)
        | none => none
    some { job_id := create_job_id JobSource.lever company_name external_id
           source := JobSource.lever
           company_name := company_display_name
           external_id := external_id
           title := title.getD ""
           team := team
           location := location
           employment_type := employment_type
           description := description
           job_url := job_url
           apply_url := some job_url
           source_url := base_url
           first_seen := now
           last_seen := now
           raw_data := some (RawData.leverItem item) }

/-- `GreenhouseScraper._parse_job_data`. `job_data['id']` raises `KeyError` when
absent and `_get_job_details` re-raises fetch failures; both are caught by the
surrounding try, yielding `None`. The BeautifulSoup description block is the
external collaborator `extract_description`. -/
def GreenhouseScraper.parse_job_data
    (company_name company_display_name board_id base_url : String)
    (extract_description : String → Option String)
    (details_result : Except String GhDetails)
    (now : DateTime) (item : GreenhouseItem) : Option JobPosting :=
  match item.id with
  | none => none
  | some idv =>
    match details_result with
    | Except.error _ => none
    | Except.ok details =>
      let external_id := idv
      let title := normalize_text (some (item.title.getD ""))
      if pyFalsyOptStr title then none
      else
        let team :=
          match item.departments with
          | [] => none
          | d :: _ => normalize_text d.name
        let location :=
          match item.location with
          | some l => if l.isEmpty then none else normalize_text (some l)
          | none => none
        let employment_type :=
          match item.employment_type with
          | some et => normalize_text (some et)
          | none => none
        let job_url := "https://boards.greenhouse.io/" ++ board_id ++ "/jobs/" ++ external_id
        let description :=
          match details.content with
          | some content => if content.isEmpty then none else extract_description content
          | none => none
        let requirements :=
          match details.questions with
          | some qs =>
            qs.filterMap (fun q =>
              if strContains ((q.label.getD "").toLower) "required" then some (q.label.getD "")
              else none)
          | none => []
        some { job_id := create_job_id JobSource.greenhouse company_name external_id
               source := JobSource.greenhouse
               company_name := company_display_name
               external_id := external_id
               title := title.getD ""
               team := team
               location := location
               employment_type := employment_type
               description := description
               requirements := if requirements.isEmpty then none else some requirements
               job_url := job_url
               source_url := base_url
               first_seen := now
               last_seen := now
               raw_data := some (RawData.greenhouseItem item) }

/-- `WorkdayScraper._parse_job`. `external_id` is
`str(data.get("id") or data.get("jobPostingId"))`, so two missing ids stringify
to "None", which passes the emptiness guard. -/
def WorkdayScraper.parse_job (company_name company_display_name job_board_url : String)
    (now : DateTime) (item : WorkdayItem) : Option JobPosting :=
  let external_id := pyStr (pyOr item.id item.jobPostingId)
  let title := normalize_text item.title
  if external_id.isEmpty || pyFalsyOptStr title then none
  else
    let location :=
      match item.bulletFields.find? (fun f => f.label == some "locations") with
      | some f => normalize_text f.text
      | none => none
    some { job_id := create_job_id JobSource.workday company_name external_id
           source := JobSource.workday
           company_name := company_display_name
           external_id := external_id
           title := title.getD ""
           location := location
           job_url := job_board_url ++ "/job/" ++ external_id
           source_url := job_board_url
           first_seen := now
           last_seen := now
           raw_data := some (RawData.workdayItem item) }

/-- `AshbyScraper._parse_job` (API variant); `external_id` is
`str(data.get("id") or data.get("slug"))`. -/
def AshbyScraper.parse_job (company_name company_display_name base_url : String)
    (now : DateTime) (item : AshbyItem) : Option JobPosting :=
  let external_id := pyStr (pyOr item.id item.slug)
  let title := normalize_text item.title
  if external_id.isEmpty || pyFalsyOptStr title then none
  else
    let location :=
      match item.locations with
      | some (first :: _) =>
        match first with
        | AshbyField.dict nm => normalize_text nm
        | AshbyField.plain s => normalize_text (some s)
      | _ => none
    let team :=
      match item.departments with
      | some (first :: _) =>
        match first with
        | AshbyField.dict nm => normalize_text nm
        | AshbyField.plain s => normalize_text (some s)
      | _ => none
    some { job_id := create_job_id JobSource.ashby company_name external_id
           source := JobSource.ashby
           company_name := company_display_name
           external_id := external_id
           title := title.getD ""
           team := team
           location := location
           job_url := base_url ++ "/" ++ external_id
           source_url := base_url
           first_seen := now
           last_seen := now
           raw_data := some (RawData.ashbyItem item) }

/-- Whether an adapter-level call returned normally. -/
def exceptIsOk {ε α : Type} : Except ε α → Bool
  | Except.ok _ => true
  | Except.error _ => false

/-- C5 counterexample: a Lever item with no `id` at all but a good title still
produces a Posting, whose `external_id` is blank — external_id presence is not
required, contradicting the claim. -/
theorem C5_counterexample :
    ((LeverScraper.parse_job_data "acme" "Acme" "https://jobs.lever.co/acme" 0
        { text := some "Engineer" }).map JobPosting.external_id) = some "" ∧
    (LeverScraper.parse_job_data "acme" "Acme" "https://jobs.lever.co/acme" 0
        { text := some "Engineer" }).isSome = true := by
  constructor <;> rfl

/-- C5 amended: every adapter produces a Posting only if the title is present and
non-blank, and a dropped item is a per-item skip (the parse returns nothing, no
error). The external_id requirement, however, is not what the claim says:
Lever never checks it (a missing id yields a posting with blank external_id);
Workday and Ashby stringify a missing id to "None", which passes their emptiness
guard; only Greenhouse drops an id-less item, via the caught KeyError (and it
also requires the per-job detail fetch to succeed). -/
theorem C5_required_fields_amended :
    (∀ (cn cd bu : String) (now : DateTime) (item : LeverItem),
        (LeverScraper.parse_job_data cn cd bu now item).isSome
          = !pyFalsyOptStr (normalize_text (some (item.text.getD "")))) ∧
    (∀ (cn cd ju : String) (now : DateTime) (item : WorkdayItem),
        (WorkdayScraper.parse_job cn cd ju now item).isSome
          = (!(pyStr (pyOr item.id item.jobPostingId)).isEmpty
              && !pyFalsyOptStr (normalize_text item.title))) ∧
    (∀ (cn cd bu : String) (now : DateTime) (item : AshbyItem),
        (AshbyScraper.parse_job cn cd bu now item).isSome
          = (!(pyStr (pyOr item.id item.slug)).isEmpty
              && !pyFalsyOptStr (normalize_text item.title))) ∧
    (∀ (cn cd bi bu : String) (ed : String → Option String)
        (dr : Except String GhDetails) (now : DateTime) (item : GreenhouseItem),
        (GreenhouseScraper.parse_job_data cn cd bi bu ed dr now item).isSome
          = (item.id.isSome && exceptIsOk dr
              && !pyFalsyOptStr (normalize_text (some (item.title.getD ""))))) ∧
    (∀ (cn cd bu : String) (now : DateTime) (item : LeverItem),
        ((LeverScraper.parse_job_data cn cd bu now { item with id := none }).map
            JobPosting.external_id)
          = if pyFalsyOptStr (normalize_text (some (item.text.getD ""))) then none
            else some "") := by
  refine ⟨?_, ?_, ?_, ?_, ?_⟩
  · intro cn cd bu now item
    cases h : pyFalsyOptStr (normalize_text (some (item.text.getD ""))) <;>
      simp [LeverScraper.parse_job_data, h]
  · intro cn cd ju now item
    cases h1 : (pyStr (pyOr item.id item.jobPostingId)).isEmpty <;>
      cases h2 : pyFalsyOptStr (normalize_text item.title) <;>
        simp [WorkdayScraper.parse_job, h1, h2]
  · intro cn cd bu now item
    cases h1 : (pyStr (pyOr item.id item.slug)).isEmpty <;>
      cases h2 : pyFalsyOptStr (normalize_text item.title) <;>
        simp [AshbyScraper.parse_job, h1, h2]
  · intro cn cd bi bu ed dr now item
    rcases hid : item.id with _ | idv
    · simp [GreenhouseScraper.parse_job_data, hid]
    · rcases dr with e | details
      · simp [GreenhouseScraper.parse_job_data, hid, exceptIsOk]
      · cases h : pyFalsyOptStr (normalize_text (some (item.title.getD ""))) <;>
          simp [GreenhouseScraper.parse_job_data, hid, exceptIsOk, h]
  · intro cn cd bu now item
    cases h : pyFalsyOptStr (normalize_text (some (item.text.getD ""))) <;>
      simp [LeverScraper.parse_job_data, h]

/- `ScraperRegistry.run_all`: the loop body of each iteration either extends
`all_jobs` with the scraper's results or (on an exception, modelled as
`Except.error`) logs and continues. -/

/-- One iteration of the `run_all` loop. -/
def run_all_step (all_jobs : List JobPosting)
    (e : String × Except String (List JobPosting)) : List JobPosting :=
  match e.2 with
  | Except.ok jobs => all_jobs ++ jobs
  | Except.error _ => all_jobs

/-- `ScraperRegistry.run_all` over the registered scrapers (key, scrape outcome)
in registration order. -/
def run_all (scrapers : List (String × Except String (List JobPosting))) :
    List JobPosting :=
  scrapers.foldl run_all_step []

lemma run_all_foldl :
    ∀ (scrapers : List (String × Except String (List JobPosting)))
      (acc : List JobPosting),
      scrapers.foldl run_all_step acc = acc ++ run_all scrapers := by
  intro scrapers
  induction scrapers with
  | nil => intro acc; simp [run_all]
  | cons s rest ih =>
    intro acc
    rw [List.foldl_cons, ih]
    conv_rhs => rw [run_all, List.foldl_cons, ih]
    rcases s with ⟨k, r⟩
    rcases r with e | jobs <;> simp [run_all_step]

lemma run_all_cons_error (k : String) (e : String)
    (rest : List (String × Except String (List JobPosting))) :
    run_all ((k, Except.error e) :: rest) = run_all rest := rfl

lemma run_all_cons_ok (k : String) (jobs : List JobPosting)
    (rest : List (String × Except String (List JobPosting))) :
    run_all ((k, Except.ok jobs) :: rest) = jobs ++ run_all rest := by
  rw [run_all, List.foldl_cons, run_all_foldl]
  rfl

/-- C7: a raising adapter contributes nothing and aborts nothing — dropping it
from the registration list leaves `run_all`'s aggregate unchanged, and in general
the aggregate is exactly the concatenation of the non-failing adapters' postings
in registration order. -/
theorem C7_run_all_tolerates_adapter_failure :
    (∀ (pre post : List (String × Except String (List JobPosting))) (k e : String),
        run_all (pre ++ (k, Except.error e) :: post) = run_all (pre ++ post)) ∧
    (∀ scrapers : List (String × Except String (List JobPosting)),
        run_all scrapers
          = (scrapers.filterMap (fun s =>
              match s.2 with
              | Except.ok jobs => some jobs
              | Except.error _ => none)).flatten) := by
  constructor
  · intro pre post k e
    induction pre with
    | nil => rfl
    | cons s rest ih =>
      rcases s with ⟨k', r⟩
      rcases r with e' | jobs
      · rw [List.cons_append, run_all_cons_error, List.cons_append, run_all_cons_error, ih]
      · rw [List.cons_append, run_all_cons_ok, List.cons_append, run_all_cons_ok, ih]
  · intro scrapers
    induction scrapers with
    | nil => rfl
    | cons s rest ih =>
      rcases s with ⟨k, r⟩
      rcases r with e | jobs
      · rw [run_all_cons_error, ih]
        rfl
      · rw [run_all_cons_ok, ih]
        rfl

/- `BaseScraper.get_page` / `get_json`: the retry loop, with the network modelled
as a per-attempt outcome oracle and `random.uniform(*delay_range)` as a stream of
drawn delays. The trace records every sleep and every request in order. -/

/-- One observable step of the fetch loop. -/
inductive FetchStep where
  | sleep (duration : ℚ)
  | request (attempt : Nat)
deriving DecidableEq, Repr

/-- Whether a step is an actual fetch attempt. -/
def FetchStep.isRequest : FetchStep → Bool
  | .request _ => true
  | .sleep _ => false

/-- The body of `get_page`'s for-loop: `fuel` is the number of remaining loop
iterations (`max_retries - attempt`); each iteration sleeps the drawn delay,
issues the request, and on failure either re-raises (final attempt) or sleeps
`2 ** attempt` and continues. Exhausting the range without returning (only
possible when `max_retries = 0`) falls off the function: result `none`. -/
def get_page_loop (outcome : Nat → Except String String) (draws : Nat → ℚ)
    (max_retries : Nat) : Nat → Nat → List FetchStep × Option (Except String String)
  | 0, _ => ([], none)
  | fuel + 1, attempt =>
    let steps := [FetchStep.sleep (draws attempt), FetchStep.request attempt]
    match outcome attempt with
    | Except.ok body => (steps, some (Except.ok body))
    | Except.error e =>
      if attempt = max_retries - 1 then (steps, some (Except.error e))
      else
        let rest := get_page_loop outcome draws max_retries fuel (attempt + 1)
        (steps ++ FetchStep.sleep ((2 : ℚ) ^ attempt) :: rest.1, rest.2)

/-- `BaseScraper.get_page`: run the loop `for attempt in range(max_retries)`. -/
def get_page (outcome : Nat → Except String String) (draws : Nat → ℚ)
    (max_retries : Nat) : List FetchStep × Option (Except String String) :=
  get_page_loop outcome draws max_retries max_retries 0

/-- The two error kinds `get_json` can surface. -/
inductive FetchError where
  | transport (msg : String)
  | decodeError (msg : String)
deriving DecidableEq, Repr

/-- `BaseScraper.get_json`: fetch the page, then decode; a `json.JSONDecodeError`
is re-raised as `ValueError` (a distinct error kind, not retried). -/
def get_json {α : Type} (outcome : Nat → Except String String) (draws : Nat → ℚ)
    (max_retries : Nat) (decode : String → Except String α) :
    List FetchStep × Option (Except FetchError α) :=
  let r := get_page outcome draws max_retries
  (r.1, r.2.map (fun res =>
    match res with
    | Except.ok body =>
      match decode body with
      | Except.ok v => Except.ok v
      | Except.error e => Except.error (FetchError.decodeError e)
    | Except.error e => Except.error (FetchError.transport e)))

lemma get_page_loop_request_count (outcome : Nat → Except String String)
    (draws : Nat → ℚ) (max_retries : Nat) :
    ∀ (fuel attempt : Nat),
      ((get_page_loop outcome draws max_retries fuel attempt).1.filter
          FetchStep.isRequest).length ≤ fuel := by
  intro fuel
  induction fuel with
  | zero => intro attempt; simp [get_page_loop]
  | succ f ih =>
    intro attempt
    rcases houtcome : outcome attempt with e | body
    · by_cases hlast : attempt = max_retries - 1
      · simp only [get_page_loop, houtcome]
        rw [if_pos hlast]
        simp [FetchStep.isRequest]
      · have hrec := ih (attempt + 1)
        simp only [get_page_loop, houtcome]
        rw [if_neg hlast]
        simp [FetchStep.isRequest]
        omega
    · simp only [get_page_loop, houtcome]
      simp [FetchStep.isRequest]

lemma get_page_loop_request_decomp (outcome : Nat → Except String String)
    (draws : Nat → ℚ) (max_retries : Nat) :
    ∀ (fuel attempt i : Nat),
      FetchStep.request i ∈ (get_page_loop outcome draws max_retries fuel attempt).1 →
      ∃ l r, (get_page_loop outcome draws max_retries fuel attempt).1
          = l ++ FetchStep.sleep (draws i) :: FetchStep.request i :: r := by
  intro fuel
  induction fuel with
  | zero => intro attempt i h; simp [get_page_loop] at h
  | succ f ih =>
    intro attempt i h
    rcases houtcome : outcome attempt with e | body
    · by_cases hlast : attempt = max_retries - 1
      · simp only [get_page_loop, houtcome] at h ⊢
        rw [if_pos hlast] at h ⊢
        simp only [List.mem_cons, List.not_mem_nil, or_false] at h
        rcases h with h | h
        · simp at h
        · injection h with hi
          subst hi
          exact ⟨[], [], rfl⟩
      · simp only [get_page_loop, houtcome] at h ⊢
        rw [if_neg hlast] at h ⊢
        simp only [List.cons_append, List.nil_append] at h ⊢
        simp only [List.mem_cons] at h
        rcases h with h | h | h | h
        · simp at h
        · injection h with hi
          subst hi
          exact ⟨[], FetchStep.sleep ((2 : ℚ) ^ i)
              :: (get_page_loop outcome draws max_retries f (i + 1)).1, rfl⟩
        · simp at h
        · obtain ⟨l, r, hlr⟩ := ih (attempt + 1) i h
          exact ⟨FetchStep.sleep (draws attempt) :: FetchStep.request attempt ::
              FetchStep.sleep ((2 : ℚ) ^ attempt) :: l, r, by
            simp only [List.cons_append, hlr]⟩
    · simp only [get_page_loop, houtcome] at h ⊢
      simp only [List.mem_cons, List.not_mem_nil, or_false] at h
      rcases h with h | h
      · simp at h
      · injection h with hi
        subst hi
        exact ⟨[], [], rfl⟩

lemma get_page_loop_backoff (outcome : Nat → Except String String)
    (draws : Nat → ℚ) (max_retries : Nat) :
    ∀ (fuel attempt i : Nat) (e : String),
      FetchStep.request i ∈ (get_page_loop outcome draws max_retries fuel attempt).1 →
      outcome i = Except.error e → i ≠ max_retries - 1 →
      ∃ l r, (get_page_loop outcome draws max_retries fuel attempt).1
          = l ++ FetchStep.sleep (draws i) :: FetchStep.request i ::
              FetchStep.sleep ((2 : ℚ) ^ i) :: r := by
  intro fuel
  induction fuel with
  | zero => intro attempt i e h _ _; simp [get_page_loop] at h
  | succ f ih =>
    intro attempt i e h he hi
    rcases houtcome : outcome attempt with e' | body
    · by_cases hlast : attempt = max_retries - 1
      · simp only [get_page_loop, houtcome] at h
        rw [if_pos hlast] at h
        simp only [List.mem_cons, List.not_mem_nil, or_false] at h
        rcases h with h | h
        · simp at h
        · injection h with hic
          subst hic
          exact absurd hlast hi
      · simp only [get_page_loop, houtcome] at h ⊢
        rw [if_neg hlast] at h ⊢
        simp only [List.cons_append, List.nil_append] at h ⊢
        simp only [List.mem_cons] at h
        rcases h with h | h | h | h
        · simp at h
        · injection h with hic
          subst hic
          exact ⟨[], (get_page_loop outcome draws max_retries f (i + 1)).1, rfl⟩
        · simp at h
        · obtain ⟨l, r, hlr⟩ := ih (attempt + 1) i e h he hi
          exact ⟨FetchStep.sleep (draws attempt) :: FetchStep.request attempt ::
              FetchStep.sleep ((2 : ℚ) ^ attempt) :: l, r, by
            simp only [List.cons_append, hlr]⟩
    · simp only [get_page_loop, houtcome] at h
      simp only [List.mem_cons, List.not_mem_nil, or_false] at h
      rcases h with h | h
      · simp at h
      · injection h with hic
        subst hic
        rw [houtcome] at he
        cases he

lemma get_page_loop_all_fail (outcome : Nat → Except String String)
    (draws : Nat → ℚ) (max_retries : Nat) :
    ∀ (fuel attempt : Nat),
      (∀ j, attempt ≤ j → j < max_retries → ∃ e, outcome j = Except.error e) →
      attempt + fuel = max_retries → 0 < fuel →
      ∃ e, outcome (max_retries - 1) = Except.error e ∧
        (get_page_loop outcome draws max_retries fuel attempt).2
          = some (Except.error e) := by
  intro fuel
  induction fuel with
  | zero => intro attempt _ _ h0; exact absurd h0 (by omega)
  | succ f ih =>
    intro attempt hfail htotal _
    obtain ⟨e, he⟩ := hfail attempt (Nat.le_refl attempt) (by omega)
    by_cases hlast : attempt = max_retries - 1
    · refine ⟨e, hlast ▸ he, ?_⟩
      simp only [get_page_loop, he]
      rw [if_pos hlast]
    · have hf : 0 < f := by omega
      obtain ⟨e', he', hres⟩ := ih (attempt + 1)
        (fun j hj hj2 => hfail j (by omega) hj2) (by omega) hf
      refine ⟨e', he', ?_⟩
      simp only [get_page_loop, he]
      rw [if_neg hlast]
      exact hres

/-- C9: the Fetch Client makes at most `max_retries` attempts; every attempt is
immediately preceded by a sleep of the drawn delay (which lies in the configured
range whenever the draw stream does); a failed non-final attempt is followed by a
`2 ^ attempt` backoff sleep; when every attempt fails the final transport error is
surfaced (also through `get_json` as a transport error), and a JSON decode
failure after a successful fetch is surfaced as the distinct decode error kind. -/
theorem C9_fetch_retry_contract (outcome : Nat → Except String String)
    (draws : Nat → ℚ) (max_retries : Nat) (dmin dmax : ℚ)
    (decode : String → Except String String) :
    (((get_page outcome draws max_retries).1.filter FetchStep.isRequest).length
        ≤ max_retries) ∧
    (∀ i, FetchStep.request i ∈ (get_page outcome draws max_retries).1 →
        ∃ l r, (get_page outcome draws max_retries).1
            = l ++ FetchStep.sleep (draws i) :: FetchStep.request i :: r) ∧
    ((∀ n, dmin ≤ draws n ∧ draws n < dmax) →
        ∀ i, FetchStep.request i ∈ (get_page outcome draws max_retries).1 →
          dmin ≤ draws i ∧ draws i < dmax) ∧
    (∀ i e, FetchStep.request i ∈ (get_page outcome draws max_retries).1 →
        outcome i = Except.error e → i + 1 < max_retries →
        ∃ l r, (get_page outcome draws max_retries).1
            = l ++ FetchStep.sleep (draws i) :: FetchStep.request i ::
                FetchStep.sleep ((2 : ℚ) ^ i) :: r) ∧
    (0 < max_retries → (∀ j, j < max_retries → ∃ e, outcome j = Except.error e) →
        ∃ e, outcome (max_retries - 1) = Except.error e ∧
          (get_page outcome draws max_retries).2 = some (Except.error e) ∧
          (get_json outcome draws max_retries decode).2
            = some (Except.error (FetchError.transport e))) ∧
    (∀ body e, (get_page outcome draws max_retries).2 = some (Except.ok body) →
        decode body = Except.error e →
        (get_json outcome draws max_retries decode).2
          = some (Except.error (FetchError.decodeError e))) := by
  refine ⟨?_, ?_, ?_, ?_, ?_, ?_⟩
  · exact get_page_loop_request_count outcome draws max_retries max_retries 0
  · intro i hi
    exact get_page_loop_request_decomp outcome draws max_retries max_retries 0 i hi
  · intro hdr i _
    exact hdr i
  · intro i e hi he hfin
    exact get_page_loop_backoff outcome draws max_retries max_retries 0 i e hi he
      (by omega)
  · intro hpos hfail
    obtain ⟨e, he, hres⟩ := get_page_loop_all_fail outcome draws max_retries max_retries 0
      (fun j _ hj => hfail j hj) (by omega) hpos
    refine ⟨e, he, hres, ?_⟩
    simp only [get_json, get_page]
    rw [hres]
    rfl
  · intro body e hok hdec
    simp only [get_json]
    rw [hok]
    simp [hdec]

/-- A network that fails every attempt (for the C9 witness). -/
def failingOutcome (_ : Nat) : Except String String := Except.error "timeout"

/-- A constant delay draw stream (for the C9 witness). -/
def constDraws (_ : Nat) : ℚ := 2

/-- Witness for C9: with three attempts all failing, the final transport error is
surfaced through both `get_page` and `get_json`. -/
theorem C9_fetch_retry_contract_witness :
    ∃ e, failingOutcome 2 = Except.error e ∧
      (get_page failingOutcome constDraws 3).2 = some (Except.error e) ∧
      (get_json failingOutcome constDraws 3 (fun s => Except.ok s)).2
        = some (Except.error (FetchError.transport e)) :=
  (C9_fetch_retry_contract failingOutcome constDraws 3 1 3 (fun s => Except.ok s)).2.2.2.2.1
    (by decide) (fun j _ => ⟨"timeout", rfl⟩)

end AIJobs
